import Mathlib

/-!
Verification of the document-store and retrieval subsystem of the
`ai-rag-starter` repository (a RAG question-answering pipeline).

The development shallowly embeds the TypeScript sources:
  * `src/lib/vector-store.ts`   — store state, `addDocumentsToStore`,
    `deleteDocument`, `clearKnowledgeBase`, `clearAllDocuments`,
    `getKnowledgeBaseStats`, `detectFileType`;
  * the embedding client (`DashScopeEmbeddings.embedDocuments` /
    `callDashScopeEmbedding`) — sub-batching by 10 and per-text
    trim/truncate preprocessing;
  * `queryRag` (rag library) — retrieval short-circuit and the
    suggested-question parsing of the raw generator output;
  * the content-processing part of the upload handler
    (`src/app/api/upload/route.ts`) — whitespace normalization, the
    empty-content rejection and the zero-split fallback.

External collaborators (the DashScope embedding HTTP call, the langchain
similarity retriever, the generative model) are parameters: an embedding
oracle `E : String → Option Vec` (per-text, `none` = the provider call
containing that text fails), a retriever function and a generator
function.  JavaScript string operations (`trim`, `split`, `replace` of
the concrete regexes, `toLowerCase`) are re-implemented structurally on
`List Char` so that every definition evaluates by kernel reduction.

Mutable global state (`global.vectorStoreInstance`, `storedDocuments`,
`documentMetas`) becomes an explicit `StoreState` threaded through the
operations; `Date.now()` becomes an explicit timestamp parameter `t`,
rendered in decimal exactly as the template string `doc_${Date.now()}`
does.
-/

namespace RagStarter

/-! ### JavaScript string primitives, re-implemented structurally -/

/-- JS `String.prototype.trim` on a character list (whitespace at both
ends removed). -/
def jsTrimChars (l : List Char) : List Char :=
  ((l.dropWhile Char.isWhitespace).reverse.dropWhile Char.isWhitespace).reverse

/-- JS `s.trim()`. -/
def jsTrim (s : String) : String :=
  String.mk (jsTrimChars s.data)

/-- JS `c.toLowerCase()` lifted to strings (ASCII case folding, which is
all the source relies on for file extensions). -/
def jsToLower (s : String) : String :=
  String.mk (s.data.map Char.toLower)

/-- One step of `replace(/[ \t]+/g, ' ')`: the Boolean argument records
whether the previous character was part of a space/tab run (in which
case the run has already emitted its single replacement space). -/
def collapseSpaceTab : Bool → List Char → List Char
  | _, [] => []
  | inRun, c :: rest =>
    if c = ' ' ∨ c = '\t' then
      (if inRun then [] else [' ']) ++ collapseSpaceTab true rest
    else
      c :: collapseSpaceTab false rest

/-- Splits a leading run of newline characters: returns the length of the
maximal `'\n'`-run at the head together with the remainder. -/
def nlRun : List Char → Nat × List Char
  | [] => (0, [])
  | c :: rest =>
    if c = '\n' then
      let p := nlRun rest
      (p.1 + 1, p.2)
    else
      (0, c :: rest)

/-- JS `replace(/\n{3,}/g, '\n\n')`, fueled so that the recursion is
structural (every step consumes at least one character, so fuel
`length + 1` never runs out): every maximal newline run of length at
least 3 is replaced by exactly two newlines; shorter runs are kept. -/
def squeezeNewlinesF : Nat → List Char → List Char
  | 0, _ => []
  | _ + 1, [] => []
  | fuel + 1, c :: rest =>
    if c = '\n' then
      let p := nlRun rest
      (if 3 ≤ p.1 + 1 then ['\n', '\n'] else List.replicate (p.1 + 1) '\n') ++
        squeezeNewlinesF fuel p.2
    else
      c :: squeezeNewlinesF fuel rest

/-- JS `replace(/\n{3,}/g, '\n\n')`. -/
def squeezeNewlines (l : List Char) : List Char :=
  squeezeNewlinesF (l.length + 1) l

/-- The whitespace normalization applied to extracted file content in the
upload and reindex handlers:
`content.trim().replace(/[ \t]+/g, ' ').replace(/\n{3,}/g, '\n\n')`. -/
def normalizeContent (content : String) : String :=
  String.mk (squeezeNewlines (collapseSpaceTab false (jsTrimChars content.data)))

/-- JS `s.split(sep)` on character lists; `acc` holds the current part in
reverse.  For the nonempty separators used by the source this matches the
JavaScript semantics (left-to-right scan, non-overlapping matches, empty
parts kept). -/
def splitCharsF (sep : List Char) : Nat → List Char → List Char → List (List Char)
  | 0, _, acc => [acc.reverse]
  | _ + 1, [], acc => [acc.reverse]
  | fuel + 1, c :: rest, acc =>
    if sep.isPrefixOf (c :: rest) ∧ sep ≠ [] then
      acc.reverse :: splitCharsF sep fuel (List.drop sep.length (c :: rest)) []
    else
      splitCharsF sep fuel rest (c :: acc)

/-- JS `s.split(sep)` on character lists (each recursion step consumes
at least one character, so fuel `length + 1` never runs out). -/
def splitChars (sep l acc : List Char) : List (List Char) :=
  splitCharsF sep (l.length + 1) l acc

/-- JS `s.split(sep)` for a string separator. -/
def jsSplitOn (sep : String) (s : String) : List String :=
  (splitChars sep.data s.data []).map String.mk

/-- JS `Array.prototype.join(sep)` on character lists (used to validate
the split model: joining the split parts restores the input). -/
def joinChars (sep : List Char) : List (List Char) → List Char
  | [] => []
  | [x] => x
  | x :: y :: rest => x ++ sep ++ joinChars sep (y :: rest)

/-- JS `q.replace(/^\d+\.\s*/, '')` on a character list: a leading block
of one or more digits followed by a literal dot and optional whitespace
is removed; otherwise the list is unchanged. -/
def stripNumMarker (l : List Char) : List Char :=
  let ds := l.takeWhile Char.isDigit
  if ds = [] then l
  else
    match l.dropWhile Char.isDigit with
    | '.' :: r => r.dropWhile Char.isWhitespace
    | _ => l

/-- JS `q.replace(/^[-•]\s*/, '')` on a character list. -/
def stripBulletMarker : List Char → List Char
  | [] => []
  | c :: r => if c = '-' ∨ c = '•' then r.dropWhile Char.isWhitespace else c :: r

/-- The per-line cleanup of a suggested question in `queryRag`:
`q.replace(/^\d+\.\s*/, '').replace(/^[-•]\s*/, '').trim()`. -/
def stripListMarkers (q : String) : String :=
  String.mk (jsTrimChars (stripBulletMarker (stripNumMarker q.data)))

/-! ### Decimal rendering and document ids -/

/-- Decimal digits of `n`, most significant first, computed with explicit
fuel so that the definition is structural (the fuel `n + 1` always
suffices because `n / 10 < n` for `10 ≤ n`). -/
def decReprAux : Nat → Nat → List Char
  | 0, _ => []
  | fuel + 1, n =>
    if n < 10 then [Nat.digitChar n]
    else decReprAux fuel (n / 10) ++ [Nat.digitChar (n % 10)]

/-- The decimal rendering of a natural number, as JS template
interpolation of a number produces it. -/
def decReprStr (n : Nat) : String :=
  String.mk (decReprAux (n + 1) n)

/-- The document id generated by `addDocumentsToStore`:
`` `doc_${Date.now()}` `` with the timestamp made explicit. -/
def docIdOf (t : Nat) : String :=
  "doc_" ++ decReprStr t

/-! ### Data model (`src/lib/vector-store.ts`) -/

/-- The metadata fields of a langchain `Document` that the source reads
or writes (`docId`, `source`, `fileType`); `none` models an absent key. -/
structure DocMetadata where
  docId : Option String
  source : Option String
  fileType : Option String
  deriving DecidableEq, Repr

/-- A langchain `Document`: page content plus metadata. -/
structure Document where
  pageContent : String
  metadata : DocMetadata
  deriving DecidableEq, Repr

/-- `DocumentMeta` from `src/lib/vector-store.ts` (the `uploadTime`
ISO-string is represented by the underlying timestamp). -/
structure DocumentMeta where
  id : String
  filename : String
  uploadTime : Nat
  chunkCount : Nat
  fileType : String
  deriving DecidableEq, Repr

/-- One entry of the `MemoryVectorStore`: a vector paired with its
document. -/
structure VectorEntry where
  vector : List Int
  doc : Document
  deriving DecidableEq, Repr

/-- The mutable global state of `vector-store.ts`:
`global.vectorStoreInstance` (`none` = `undefined`),
`global.storedDocuments` (pairs `{docId, doc}`) and
`global.documentMetas`. -/
structure StoreState where
  vectorStoreInstance : Option (List VectorEntry)
  storedDocuments : List (String × Document)
  documentMetas : List DocumentMeta
  deriving DecidableEq, Repr

/-- The empty initial state (fresh process: all globals undefined/empty). -/
def initialState : StoreState :=
  { vectorStoreInstance := none, storedDocuments := [], documentMetas := [] }

/-- `detectFileType` from `src/lib/vector-store.ts`: lower-case the file
name, take the part after the last dot, look it up in the type map. -/
def detectFileType (filename : String) : String :=
  let ext := (jsSplitOn "." (jsToLower filename)).getLastD ""
  if ext = "pdf" then "PDF"
  else if ext = "txt" then "TXT"
  else if ext = "md" then "Markdown"
  else if ext = "markdown" then "Markdown"
  else if ext = "xlsx" then "Excel"
  else if ext = "xls" then "Excel"
  else if ext = "docx" then "Word"
  else if ext = "doc" then "Word"
  else "Unknown"

/-! ### Embedding client (`DashScopeEmbeddings`) -/

/-- Embedding vectors (the numeric values are opaque to every property
verified here). -/
abbrev Vec := List Int

/-- The external embedding provider, per text: `none` means the API call
whose payload contains this text fails. -/
abbrev EmbedOracle := String → Option Vec

/-- The per-text preprocessing inside `callDashScopeEmbedding`: trim, and
truncate to 2048 characters when longer. -/
def processText (text : String) : String :=
  let cleaned := jsTrim text
  if 2048 < cleaned.length then String.mk (cleaned.data.take 2048) else cleaned

/-- Sequences an `Option`-valued function over a list: `some` of the list
of results when every call succeeds, `none` as soon as one fails. -/
def optMap (f : α → Option β) : List α → Option (List β)
  | [] => some []
  | a :: as =>
    match f a, optMap f as with
    | some b, some bs => some (b :: bs)
    | _, _ => none

/-- `callDashScopeEmbedding`: one provider API call on a batch of texts —
each text is preprocessed, and the call returns one vector per text,
positionally, or fails as a whole. -/
def callDashScopeEmbedding (E : EmbedOracle) (texts : List String) : Option (List Vec) :=
  optMap E (texts.map processText)

/-- The DashScope batch limit (`const batchSize = 10`). -/
def batchSize : Nat := 10

/-- Fueled helper for `toBatches` (each step consumes at least one
element, so fuel `length + 1` never runs out). -/
def toBatchesF : Nat → List α → List (List α)
  | 0, _ => []
  | _ + 1, [] => []
  | fuel + 1, a :: rest =>
    (a :: rest).take batchSize :: toBatchesF fuel ((a :: rest).drop batchSize)

/-- The consecutive sub-batches produced by the loop
`for (let i = 0; i < len; i += batchSize) slice(i, i + batchSize)`. -/
def toBatches (l : List α) : List (List α) :=
  toBatchesF (l.length + 1) l

/-- `DashScopeEmbeddings.embedDocuments`: split the input into sub-batches
of at most 10, issue them sequentially, concatenate the results; any
failing sub-batch fails the whole call. -/
def embedDocuments (E : EmbedOracle) (documents : List String) : Option (List Vec) :=
  match optMap (callDashScopeEmbedding E) (toBatches documents) with
  | some results => some results.flatten
  | none => none

/-! ### Vector-store operations (`src/lib/vector-store.ts`) -/

/-- `getVectorStore`: when `global.vectorStoreInstance` is undefined a
fresh empty `MemoryVectorStore` is installed (and the list globals are
defaulted to `[]`, which the explicit-state model already guarantees). -/
def getVectorStore (s : StoreState) : StoreState :=
  match s.vectorStoreInstance with
  | some _ => s
  | none => { s with vectorStoreInstance := some [] }

/-- The document written into the store by `addDocumentsToStore`:
the original page content with `docId`, `source` and `fileType` set in
the metadata. -/
def withDocId (docId filename ftype : String) (d : Document) : Document :=
  { pageContent := d.pageContent,
    metadata := { docId := some docId, source := some filename, fileType := some ftype } }

/-- One iteration of the inner loop of `addDocumentsToStore`:
`vectorStore.addVectors([vectors[j]], [docWithMeta])` followed by
`storedDocuments.push({docId, doc: docWithMeta})`. -/
def commitChunk (docId : String) (s : StoreState) (v : Vec) (d : Document) : StoreState :=
  { s with
    vectorStoreInstance := some ((s.vectorStoreInstance.getD []) ++ [{ vector := v, doc := d }]),
    storedDocuments := s.storedDocuments ++ [(docId, d)] }

/-- The inner loop of `addDocumentsToStore` over one embedded batch
(vector/document pairs, positionally zipped as the source indexes them). -/
def commitBatch (docId filename ftype : String) (s : StoreState) : List (Vec × Document) → StoreState
  | [] => s
  | (v, d) :: rest =>
    commitBatch docId filename ftype (commitChunk docId s v (withDocId docId filename ftype d)) rest

/-- The batch loop of `addDocumentsToStore`: embed each batch and commit
its chunks; an embedding failure rethrows, leaving the state as mutated
by the earlier successful batches (`false` = the call threw). -/
def addBatches (E : EmbedOracle) (docId filename ftype : String) (s : StoreState) :
    List (List Document) → StoreState × Bool
  | [] => (s, true)
  | batch :: rest =>
    match embedDocuments E (batch.map (fun d => d.pageContent)) with
    | none => (s, false)
    | some vecs =>
      addBatches E docId filename ftype
        (commitBatch docId filename ftype s (vecs.zip batch)) rest

/-- `fileType || detectFileType(filename)`: the explicit argument wins
unless it is absent or empty (the empty string is falsy in JS). -/
def resolveFileType (fileType : Option String) (filename : String) : String :=
  match fileType with
  | some f => if f = "" then detectFileType filename else f
  | none => detectFileType filename

/-- `addDocumentsToStore(docs, filename, fileType?)`: generates the id
`doc_<t>`, resolves the file type (`fileType || detectFileType(filename)`
— the empty string is falsy), commits the chunks batch by batch, and on
full success appends the `DocumentMeta` record (`chunkCount` is the total
`docs.length`).  On an embedding failure the call returns `none` with the
state as mutated so far and no meta recorded. -/
def addDocumentsToStore (E : EmbedOracle) (docs : List Document) (filename : String)
    (fileType : Option String) (t : Nat) (s : StoreState) : StoreState × Option DocumentMeta :=
  let s1 := getVectorStore s
  let docId := docIdOf t
  let ft := resolveFileType fileType filename
  match addBatches E docId filename ft s1 (toBatches docs) with
  | (s2, false) => (s2, none)
  | (s2, true) =>
    let docMeta : DocumentMeta :=
      { id := docId, filename := filename, uploadTime := t,
        chunkCount := docs.length, fileType := ft }
    ({ s2 with documentMetas := s2.documentMetas ++ [docMeta] }, some docMeta)

/-- The rebuild loop of `deleteDocument`: the surviving documents are
re-embedded batch by batch into a fresh `MemoryVectorStore`; a failure
discards the fresh store. -/
def rebuildEntries (E : EmbedOracle) : List (List (String × Document)) → Option (List VectorEntry)
  | [] => some []
  | batch :: rest =>
    match embedDocuments E (batch.map (fun d => d.2.pageContent)), rebuildEntries E rest with
    | some vecs, some acc =>
      some ((vecs.zip batch).map (fun p => { vector := p.1, doc := p.2.2 }) ++ acc)
    | _, _ => none

/-- `deleteDocument(docId)`: filter the meta list and the stored-document
list by id, then rebuild the vector store from the survivors (the
`MemoryVectorStore` supports no point deletion).  The filters are
assigned before the rebuild, so on a rebuild failure (`false`) the two
lists are already filtered while the old store instance survives. -/
def deleteDocument (E : EmbedOracle) (docId : String) (s : StoreState) : StoreState × Bool :=
  let metas := s.documentMetas.filter (fun m => m.id ≠ docId)
  let remainingDocs := s.storedDocuments.filter (fun d => d.1 ≠ docId)
  let s1 := { s with documentMetas := metas, storedDocuments := remainingDocs }
  match rebuildEntries E (toBatches remainingDocs) with
  | some entries => ({ s1 with vectorStoreInstance := some entries }, true)
  | none => (s1, false)

/-- `clearKnowledgeBase`: drop the store instance, empty both lists. -/
def clearKnowledgeBase (_s : StoreState) : StoreState :=
  { vectorStoreInstance := none, storedDocuments := [], documentMetas := [] }

/-- `clearAllDocuments` (used before reindexing): drop the store
instance, empty both lists. -/
def clearAllDocuments (_s : StoreState) : StoreState :=
  { vectorStoreInstance := none, storedDocuments := [], documentMetas := [] }

/-- The statistics of `getKnowledgeBaseStats` (the `config` field of the
source's return value is process configuration, not store state, and is
omitted). -/
structure KnowledgeBaseStats where
  documentCount : Nat
  totalChunks : Nat
  documents : List DocumentMeta
  deriving DecidableEq, Repr

/-- `getKnowledgeBaseStats`: document count and the sum of the per-record
chunk counts. -/
def getKnowledgeBaseStats (s : StoreState) : KnowledgeBaseStats :=
  { documentCount := s.documentMetas.length,
    totalChunks := (s.documentMetas.map (fun m => m.chunkCount)).sum,
    documents := s.documentMetas }

/-! ### Query pipeline (`queryRag`) -/

/-- The record returned per retrieved chunk. -/
structure RetrievedChunk where
  content : String
  source : String
  deriving DecidableEq, Repr

/-- The result record of `queryRag`. -/
structure RagResult where
  answer : String
  chunks : List RetrievedChunk
  suggestedQuestions : List String
  deriving DecidableEq, Repr

/-- The `RagConfig` fields `queryRag` reads. -/
structure RagConfig where
  topK : Nat
  model : String
  temperature : Int
  deriving DecidableEq, Repr

/-- The fixed no-relevant-information answer returned when retrieval
finds nothing. -/
def noRelevantAnswer : String :=
  "抱歉，知识库中没有找到相关信息。请先上传相关文档。"

/-- The fallback chunk source shown when a document has no `source`
metadata (JS `doc.metadata?.source || '未知来源'`; the empty string is
falsy). -/
def chunkSource (d : Document) : String :=
  match d.metadata.source with
  | some src => if src = "" then "未知来源" else src
  | none => "未知来源"

/-- The separator token between the answer and the suggested questions. -/
def suggestedQuestionsSep : String :=
  "---SUGGESTED_QUESTIONS---"

/-- Joins parts with a separator (JS `Array.prototype.join`). -/
def joinSep (sep : String) : List String → String
  | [] => ""
  | [x] => x
  | x :: y :: rest => x ++ sep ++ joinSep sep (y :: rest)

/-- The context block: `docs.map((d, i) => 【片段i+1】\n d.pageContent)`
joined by `\n\n---\n\n`. -/
def buildContext (docs : List Document) : String :=
  joinSep "\n\n---\n\n"
    (docs.enum.map (fun p => "【片段" ++ decReprStr (p.1 + 1) ++ "】\n" ++ p.2.pageContent))

/-- The prompt template of `queryRag` with the context and question
interpolated. -/
def ragPrompt (context question : String) : String :=
  "你是一个专业的知识库问答助手。请严格根据以下提供的资料来回答用户的问题。\n\n" ++
  "## 重要规则：\n" ++
  "1. 只能使用下面提供的资料内容来回答\n" ++
  "2. 如果资料中包含相关信息，请准确引用并回答\n" ++
  "3. 如果资料中确实没有相关信息，请明确说\"根据已上传的文档，未找到相关信息\"\n" ++
  "4. 回答要条理清晰，可以使用列表格式\n" ++
  "5. 回答完成后，在最后另起一行，以\"---SUGGESTED_QUESTIONS---\"开头，然后换行列出3个用户可能想继续问的相关问题，每个问题一行，问题要基于资料内容，帮助用户深入了解\n\n" ++
  "## 参考资料：\n" ++ context ++ "\n\n## 用户问题：\n" ++ question ++ "\n\n## 回答："

/-- The answer/suggested-question parsing of `queryRag` (source lines
67–83): JS `rawAnswer.includes(separator)` holds exactly when the split
has at least two parts; the answer is the part before the first
separator, trimmed; the questions are the lines of the part between the
first and second separator, each stripped of leading numeric or bullet
list markers and trimmed, kept when nonempty and shorter than 100
characters, at most three. -/
def parseRagAnswer (rawAnswer : String) : String × List String :=
  let parts := jsSplitOn suggestedQuestionsSep rawAnswer
  if 2 ≤ parts.length then
    let answer := jsTrim (parts.headD "")
    let questionsText := jsTrim ((parts[1]?).getD "")
    let suggestedQuestions :=
      (((jsSplitOn "\n" questionsText).map stripListMarkers).filter
        (fun q => 0 < q.length ∧ q.length < 100)).take 3
    (answer, suggestedQuestions)
  else
    (rawAnswer, [])

/-- `queryRag(question, customTopK?)`, with the langchain retriever and
the generative model as explicit collaborators.  The Boolean records
whether `createLLM`/`model.invoke` was reached; the zero-retrieval branch
returns the fixed answer with empty chunk and suggestion lists without
touching the generator. -/
def queryRag (retrieve : String → Nat → List Document) (generate : String → String)
    (config : RagConfig) (question : String) (customTopK : Option Nat) :
    RagResult × Bool :=
  let topK := customTopK.getD config.topK
  let docs := retrieve question topK
  let chunks := docs.map (fun d => { content := d.pageContent, source := chunkSource d : RetrievedChunk })
  if docs.length = 0 then
    ({ answer := noRelevantAnswer, chunks := [], suggestedQuestions := [] }, false)
  else
    let context := buildContext docs
    let prompt := ragPrompt context question
    let rawAnswer := generate prompt
    let parsed := parseRagAnswer rawAnswer
    ({ answer := parsed.1, chunks := chunks, suggestedQuestions := parsed.2 }, true)

/-! ### Upload handler (content-processing part of
`src/app/api/upload/route.ts`; the same splitting/fallback logic appears
in `src/app/api/reindex/route.ts`) -/

/-- The outcome reported by the upload handler for one file, from the
point where the text has been extracted. -/
inductive UploadResponse where
  | ok (meta : DocumentMeta)
  | emptyContent
  | noChunks
  | embedFailed
  deriving DecidableEq, Repr

/-- The content-processing pipeline of the upload handler: normalize the
extracted text, reject when shorter than 10 characters, split with the
configured splitter (an external collaborator, passed as `split`), fall
back to the whole document when the splitter returns nothing, and ingest
via `addDocumentsToStore`.  The Boolean records whether an embedding
call was made. -/
def handleUpload (E : EmbedOracle) (split : String → List String)
    (filename fileType rawContent : String) (t : Nat) (s : StoreState) :
    UploadResponse × StoreState × Bool :=
  let content := normalizeContent rawContent
  if content.length < 10 then
    (UploadResponse.emptyContent, s, false)
  else
    let docs : List Document :=
      [{ pageContent := content,
         metadata := { docId := none, source := some filename, fileType := some fileType } }]
    let pieces := split content
    let splitDocs :=
      if pieces.length = 0 ∧ 0 < content.length then docs
      else pieces.map (fun txt =>
        { pageContent := txt,
          metadata := { docId := none, source := some filename, fileType := some fileType } : Document })
    if splitDocs.length = 0 then
      (UploadResponse.noChunks, s, false)
    else
      match addDocumentsToStore E splitDocs filename (some fileType) t s with
      | (s2, some meta) => (UploadResponse.ok meta, s2, true)
      | (s2, none) => (UploadResponse.embedFailed, s2, true)

/-! ### Operation traces over the store -/

/-- One mutating operation on the global store state, with the external
collaborators and the timestamp of the call made explicit. -/
inductive Op where
  | add (E : EmbedOracle) (docs : List Document) (filename : String)
      (fileType : Option String) (t : Nat)
  | del (E : EmbedOracle) (docId : String)
  | clearKB
  | clearAll

/-- Applies one operation to the state (the result value is discarded,
as every caller of these mutators does for state purposes). -/
def applyOp (s : StoreState) : Op → StoreState
  | Op.add E docs filename fileType t => (addDocumentsToStore E docs filename fileType t s).1
  | Op.del E docId => (deleteDocument E docId s).1
  | Op.clearKB => clearKnowledgeBase s
  | Op.clearAll => clearAllDocuments s

/-- Runs a sequence of operations. -/
def runOps (s : StoreState) (ops : List Op) : StoreState :=
  ops.foldl applyOp s

/-- The document ids generated by the `add` operations of a trace, in
order. -/
def addIds : List Op → List String
  | [] => []
  | Op.add _ _ _ _ t :: rest => docIdOf t :: addIds rest
  | _ :: rest => addIds rest

/-- The registry-store consistency invariant (claim C5 / spec §3): every
`DocumentMeta` record's `chunkCount` equals the number of entries of
`storedDocuments` carrying that record's id. -/
def metaConsistent (s : StoreState) : Prop :=
  ∀ m ∈ s.documentMetas,
    m.chunkCount = (s.storedDocuments.filter (fun p => p.1 = m.id)).length

instance (s : StoreState) : Decidable (metaConsistent s) := by
  unfold metaConsistent
  infer_instance

/-- Document-id boundedness: every id occurring in the registry or the
stored-document list belongs to the given list of generated ids (the
strengthening that carries the consistency invariant through arbitrary
traces). -/
def idsBounded (s : StoreState) (ids : List String) : Prop :=
  (∀ m ∈ s.documentMetas, m.id ∈ ids) ∧ ∀ p ∈ s.storedDocuments, p.1 ∈ ids

/-! ### Concrete fixtures for counterexamples and witnesses -/

/-- An embedding oracle that succeeds on every text. -/
def oracleOne : EmbedOracle := fun _ => some [1]

/-- An embedding oracle whose provider call fails exactly on the text
`"bad"` (so the sub-batch containing it fails). -/
def oracleBad : EmbedOracle := fun text => if text = "bad" then none else some [2]

/-- A sample input chunk. -/
def chunkA : Document :=
  { pageContent := "alpha",
    metadata := { docId := none, source := some "a.txt", fileType := some "TXT" } }

/-- A sample input chunk. -/
def chunkB : Document :=
  { pageContent := "beta",
    metadata := { docId := none, source := some "b.txt", fileType := some "TXT" } }

/-- A sample input chunk. -/
def chunkC : Document :=
  { pageContent := "gamma",
    metadata := { docId := none, source := some "b.txt", fileType := some "TXT" } }

/-- Eleven chunks (two sub-batches of 10 and 1); the eleventh text is
the one `oracleBad` fails on, so batch 1 succeeds and batch 2 fails. -/
def elevenDocs : List Document :=
  (List.range 10).map (fun i =>
    { pageContent := "c" ++ decReprStr i,
      metadata := { docId := none, source := some "f.txt", fileType := some "TXT" } }) ++
  [{ pageContent := "bad",
     metadata := { docId := none, source := some "f.txt", fileType := some "TXT" } }]

/-- State after ingesting `[chunkA]` at timestamp 0 (id `doc_0`). -/
def collideState1 : StoreState :=
  (addDocumentsToStore oracleOne [chunkA] "a.txt" none 0 initialState).1

/-- State after additionally ingesting `[chunkB, chunkC]` also at
timestamp 0 — the generated id collides with the existing `doc_0`. -/
def collideState2 : StoreState :=
  (addDocumentsToStore oracleOne [chunkB, chunkC] "b.txt" none 0 collideState1).1

/-- State after `deleteDocument("doc_0")` on the collided state. -/
def collideState3 : StoreState :=
  (deleteDocument oracleOne "doc_0" collideState2).1

/-- A trace of two same-timestamp ingestions (both get id `doc_0`). -/
def collidingOps : List Op :=
  [Op.add oracleOne [chunkA] "a.txt" none 0,
   Op.add oracleOne [chunkB, chunkC] "b.txt" none 0]

/-- A trace of two ingestions in the same millisecond `t = 5`. -/
def collidingOps5 : List Op :=
  [Op.add oracleOne [chunkA] "a.txt" none 5,
   Op.add oracleOne [chunkB] "b.txt" none 5]

/-- A trace whose ingestions carry pairwise distinct timestamps. -/
def wellFormedOps : List Op :=
  [Op.add oracleOne [chunkA] "a.txt" none 1,
   Op.add oracleOne [chunkB, chunkC] "b.txt" none 2,
   Op.del oracleOne "doc_1",
   Op.clearKB,
   Op.add oracleOne [chunkC] "c.md" none 3]

/-- The state produced by ingesting `[chunkA]` at timestamp 7. -/
def freshAddState : StoreState :=
  (addDocumentsToStore oracleOne [chunkA] "a.txt" none 7 initialState).1

/-- The meta record produced by ingesting `[chunkA]` at timestamp 7. -/
def freshAddMeta : DocumentMeta :=
  { id := "doc_7", filename := "a.txt", uploadTime := 7, chunkCount := 1, fileType := "TXT" }

/-- A raw generator output containing the separator and four candidate
follow-up questions with assorted list markers. -/
def sampleRawAnswer : String :=
  "The answer.\n---SUGGESTED_QUESTIONS---\n1. First\n- Second\n• Third\n4. Fourth"

/-- A retriever returning one fixed chunk for every query. -/
def retrieveChunkA : String → Nat → List Document := fun _ _ => [chunkA]

/-- A retriever that finds nothing. -/
def retrieveNothing : String → Nat → List Document := fun _ _ => []

/-- A generator producing the fixed `sampleRawAnswer`. -/
def generateSample : String → String := fun _ => sampleRawAnswer

/-- The default configuration values of `DEFAULT_RAG_CONFIG` that
`queryRag` reads (temperature 0.3 scaled out of the model — it is opaque
to every property here). -/
def defaultConfig : RagConfig :=
  { topK := 5, model := "qwen-max", temperature := 0 }

/-! ### Basic lemmas: fuel irrelevance and unfolding equations -/

theorem toBatchesF_fuel {α : Type _} :
    ∀ (fuel₁ fuel₂ : Nat) (l : List α), l.length < fuel₁ → l.length < fuel₂ →
      toBatchesF fuel₁ l = toBatchesF fuel₂ l := by
  intro fuel₁
  induction fuel₁ with
  | zero => intro fuel₂ l h₁ h₂; omega
  | succ f ih =>
    intro fuel₂ l h₁ h₂
    cases fuel₂ with
    | zero => omega
    | succ f₂ =>
      cases l with
      | nil => rfl
      | cons a rest =>
        have hdrop : ((a :: rest).drop batchSize).length ≤ rest.length := by
          simp [List.length_drop, batchSize]
        simp only [toBatchesF]
        rw [ih f₂ _ (by simp only [List.length_cons] at h₁; omega)
          (by simp only [List.length_cons] at h₂; omega)]

theorem toBatches_nil {α : Type _} : toBatches ([] : List α) = [] := rfl

theorem toBatches_cons {α : Type _} (a : α) (rest : List α) :
    toBatches (a :: rest) =
      (a :: rest).take batchSize :: toBatches ((a :: rest).drop batchSize) := by
  have hdrop : ((a :: rest).drop batchSize).length ≤ rest.length := by
    simp [List.length_drop, batchSize]
  simp only [toBatches, List.length_cons, toBatchesF]
  rw [toBatchesF_fuel (rest.length + 1) (((a :: rest).drop batchSize).length + 1) _
    (by omega) (by omega)]

/-- The sub-batches flatten back to the input list. -/
theorem toBatches_flatten {α : Type _} :
    ∀ (l : List α), (toBatches l).flatten = l
  | [] => rfl
  | a :: rest => by
    rw [toBatches_cons]
    have hdrop : ((a :: rest).drop batchSize).length ≤ rest.length := by
      simp [List.length_drop, batchSize]
    have ih := toBatches_flatten ((a :: rest).drop batchSize)
    simp only [List.flatten_cons, ih, List.take_append_drop]
termination_by l => l.length
decreasing_by
  simp only [List.length_drop, List.length_cons, batchSize]
  omega

/-- The number of sub-batches is `⌈n / 10⌉`: in particular an input of
size 1 to 10 — size exactly 10 included — is issued as a single batch,
and only 11 or more inputs produce more than one. -/
theorem toBatches_length {α : Type _} :
    ∀ (l : List α), (toBatches l).length = (l.length + 9) / 10
  | [] => by simp [toBatches_nil]
  | a :: rest => by
    rw [toBatches_cons]
    have ih := toBatches_length ((a :: rest).drop batchSize)
    simp only [batchSize] at ih ⊢
    simp only [List.length_cons, ih, List.length_drop]
    omega
termination_by l => l.length
decreasing_by
  simp only [List.length_drop, List.length_cons, batchSize]
  omega

/-! ### Basic lemmas: `optMap` -/

theorem optMap_nil (f : α → Option β) : optMap f [] = some [] := rfl

theorem optMap_append (f : α → Option β) (l₁ l₂ : List α) :
    optMap f (l₁ ++ l₂) =
      (optMap f l₁).bind fun b₁ => (optMap f l₂).map fun b₂ => b₁ ++ b₂ := by
  induction l₁ with
  | nil =>
    cases h : optMap f l₂ <;> simp [optMap, h]
  | cons a as ih =>
    cases hfa : f a <;> cases has : optMap f as <;> cases hl2 : optMap f l₂ <;>
      simp [optMap, hfa, has, hl2, ih]

theorem optMap_length (f : α → Option β) :
    ∀ (l : List α) (r : List β), optMap f l = some r → r.length = l.length := by
  intro l
  induction l with
  | nil => intro r h; simp only [optMap, Option.some.injEq] at h; subst h; rfl
  | cons a as ih =>
    intro r h
    simp only [optMap] at h
    cases hfa : f a with
    | none => rw [hfa] at h; exact absurd h (by simp)
    | some b =>
      rw [hfa] at h
      cases hrest : optMap f as with
      | none => rw [hrest] at h; exact absurd h (by simp)
      | some bs =>
        rw [hrest] at h
        simp only [Option.some.injEq] at h
        subst h
        simp [ih bs hrest]

theorem optMap_getElem? (f : α → Option β) :
    ∀ (l : List α) (r : List β), optMap f l = some r →
      ∀ i : Nat, r[i]? = l[i]?.bind f := by
  intro l
  induction l with
  | nil =>
    intro r h i
    simp only [optMap, Option.some.injEq] at h
    subst h
    simp
  | cons a as ih =>
    intro r h i
    simp only [optMap] at h
    cases hfa : f a with
    | none => rw [hfa] at h; exact absurd h (by simp)
    | some b =>
      rw [hfa] at h
      cases hrest : optMap f as with
      | none => rw [hrest] at h; exact absurd h (by simp)
      | some bs =>
        rw [hrest] at h
        simp only [Option.some.injEq] at h
        subst h
        cases i with
        | zero => simp [hfa]
        | succ j => simpa using ih bs hrest j

/-! ### The embedding client flattens to one positional pass -/

/-- One unfolding step of `embedDocuments`: the head sub-batch is one
provider call, the tail is handled recursively, results concatenate. -/
theorem embedDocuments_cons (E : EmbedOracle) (a : String) (rest : List String) :
    embedDocuments E (a :: rest) =
      match callDashScopeEmbedding E ((a :: rest).take batchSize),
            embedDocuments E ((a :: rest).drop batchSize) with
      | some x, some y => some (x ++ y)
      | _, _ => none := by
  unfold embedDocuments
  rw [toBatches_cons]
  cases hb : callDashScopeEmbedding E ((a :: rest).take batchSize) with
  | none => simp [optMap, hb]
  | some x =>
    cases hrest : optMap (callDashScopeEmbedding E) (toBatches ((a :: rest).drop batchSize)) with
    | none => simp [optMap, hb, hrest]
    | some rs => simp [optMap, hb, hrest]

/-- Sub-batching is transparent: `embedDocuments` computes exactly the
one-call result — per-text preprocessing followed by the positional
per-text oracle, all-or-nothing. -/
theorem embedDocuments_eq_call (E : EmbedOracle) :
    ∀ (documents : List String),
      embedDocuments E documents = callDashScopeEmbedding E documents
  | [] => rfl
  | a :: rest => by
    rw [embedDocuments_cons, embedDocuments_eq_call E ((a :: rest).drop batchSize)]
    have hcall : callDashScopeEmbedding E
          ((a :: rest).take batchSize ++ (a :: rest).drop batchSize)
        = callDashScopeEmbedding E (a :: rest) := by
      rw [List.take_append_drop]
    rw [← hcall]
    unfold callDashScopeEmbedding
    rw [List.map_append, optMap_append]
    cases h1 : optMap E (((a :: rest).take batchSize).map processText) with
    | none => rfl
    | some x =>
      cases h2 : optMap E (((a :: rest).drop batchSize).map processText) with
      | none => rfl
      | some y => rfl
termination_by documents => documents.length
decreasing_by
  simp only [List.length_drop, List.length_cons, batchSize]
  omega

/-! ### Effects of the store mutators -/

theorem getVectorStore_storedDocuments (s : StoreState) :
    (getVectorStore s).storedDocuments = s.storedDocuments := by
  unfold getVectorStore
  cases s.vectorStoreInstance <;> rfl

theorem getVectorStore_documentMetas (s : StoreState) :
    (getVectorStore s).documentMetas = s.documentMetas := by
  unfold getVectorStore
  cases s.vectorStoreInstance <;> rfl

theorem commitBatch_storedDocuments (docId filename ftype : String) :
    ∀ (pairs : List (Vec × Document)) (s : StoreState),
      (commitBatch docId filename ftype s pairs).storedDocuments
        = s.storedDocuments ++
            pairs.map (fun p => (docId, withDocId docId filename ftype p.2)) := by
  intro pairs
  induction pairs with
  | nil => intro s; simp [commitBatch]
  | cons p rest ih =>
    intro s
    obtain ⟨v, d⟩ := p
    simp only [commitBatch, ih, commitChunk, List.map_cons, List.append_assoc, List.cons_append,
      List.nil_append]

theorem commitBatch_documentMetas (docId filename ftype : String) :
    ∀ (pairs : List (Vec × Document)) (s : StoreState),
      (commitBatch docId filename ftype s pairs).documentMetas = s.documentMetas := by
  intro pairs
  induction pairs with
  | nil => intro s; simp [commitBatch]
  | cons p rest ih =>
    intro s
    obtain ⟨v, d⟩ := p
    simp only [commitBatch, ih, commitChunk]

/-- The batch loop leaves the registry untouched and appends to
`storedDocuments` only entries carrying the generated id; when the loop
completes (`true`) it appends exactly one entry per input document. -/
theorem addBatches_effects (E : EmbedOracle) (docId filename ftype : String) :
    ∀ (batches : List (List Document)) (s : StoreState),
      (addBatches E docId filename ftype s batches).1.documentMetas = s.documentMetas ∧
      ∃ news,
        (addBatches E docId filename ftype s batches).1.storedDocuments
          = s.storedDocuments ++ news ∧
        (∀ p ∈ news, p.1 = docId) ∧
        ((addBatches E docId filename ftype s batches).2 = true →
          news.length = (batches.map List.length).sum) := by
  intro batches
  induction batches with
  | nil =>
    intro s
    refine ⟨rfl, [], by simp [addBatches], by simp, by simp [addBatches]⟩
  | cons batch rest ih =>
    intro s
    cases hemb : embedDocuments E (batch.map (fun d => d.pageContent)) with
    | none =>
      refine ⟨by simp [addBatches, hemb], [], by simp [addBatches, hemb], by simp, ?_⟩
      simp [addBatches, hemb]
    | some vecs =>
      have hlen : vecs.length = batch.length := by
        rw [embedDocuments_eq_call] at hemb
        have h := optMap_length E ((batch.map (fun d => d.pageContent)).map processText) vecs
          (by simpa [callDashScopeEmbedding] using hemb)
        simpa using h
      obtain ⟨hmetas, news, hstored, hids, hcount⟩ :=
        ih (commitBatch docId filename ftype s (vecs.zip batch))
      refine ⟨?_, (vecs.zip batch).map (fun p => (docId, withDocId docId filename ftype p.2))
          ++ news, ?_, ?_, ?_⟩
      · simp only [addBatches, hemb, hmetas, commitBatch_documentMetas]
      · simp only [addBatches, hemb, hstored, commitBatch_storedDocuments, List.append_assoc]
      · intro p hp
        rcases List.mem_append.mp hp with h | h
        · obtain ⟨q, _, rfl⟩ := List.mem_map.mp h
          rfl
        · exact hids p h
      · intro hok
        simp only [addBatches, hemb] at hok
        have := hcount hok
        simp [this, List.length_zip, hlen, Nat.min_self]

/-- `addDocumentsToStore` on full success: the returned meta carries the
generated id, the full chunk count and the timestamp; it is appended to
the registry; and exactly one stored entry per input document is
appended, all tagged with the generated id. -/
theorem addDocumentsToStore_success (E : EmbedOracle) (docs : List Document)
    (filename : String) (fileType : Option String) (t : Nat) (s s₂ : StoreState)
    (m : DocumentMeta)
    (h : addDocumentsToStore E docs filename fileType t s = (s₂, some m)) :
    m.id = docIdOf t ∧ m.chunkCount = docs.length ∧ m.uploadTime = t ∧
    s₂.documentMetas = s.documentMetas ++ [m] ∧
    ∃ news, s₂.storedDocuments = s.storedDocuments ++ news ∧
      (∀ p ∈ news, p.1 = docIdOf t) ∧ news.length = docs.length := by
  simp only [addDocumentsToStore] at h
  obtain ⟨hmetas, news, hstored, hids, hcount⟩ :=
    addBatches_effects E (docIdOf t) filename (resolveFileType fileType filename)
      (toBatches docs) (getVectorStore s)
  rcases hres : addBatches E (docIdOf t) filename (resolveFileType fileType filename)
      (getVectorStore s) (toBatches docs) with ⟨s₁, ok⟩
  rw [hres] at h hmetas hstored hcount
  dsimp only at hmetas hstored hcount
  cases ok with
  | false => simp at h
  | true =>
    simp only [Option.some.injEq, Prod.mk.injEq] at h
    obtain ⟨hs₂, hm⟩ := h
    have hlen : news.length = docs.length := by
      have := hcount rfl
      rw [this]
      have hflat := toBatches_flatten docs
      calc ((toBatches docs).map List.length).sum
          = (toBatches docs).flatten.length := (List.length_flatten _).symm
        _ = docs.length := by rw [hflat]
    subst hm hs₂
    refine ⟨rfl, rfl, rfl, ?_, news, ?_, hids, hlen⟩
    · show s₁.documentMetas ++ _ = _
      rw [hmetas, getVectorStore_documentMetas]
    · show s₁.storedDocuments = _
      rw [hstored, getVectorStore_storedDocuments]

/-- `addDocumentsToStore` on an embedding failure: no meta record is
created — the registry is exactly as before — while `storedDocuments`
has been extended only by entries of the failed call's generated id
(the chunks of the sub-batches that succeeded before the failure). -/
theorem addDocumentsToStore_failure (E : EmbedOracle) (docs : List Document)
    (filename : String) (fileType : Option String) (t : Nat) (s s₂ : StoreState)
    (h : addDocumentsToStore E docs filename fileType t s = (s₂, none)) :
    s₂.documentMetas = s.documentMetas ∧
    ∃ news, s₂.storedDocuments = s.storedDocuments ++ news ∧
      ∀ p ∈ news, p.1 = docIdOf t := by
  simp only [addDocumentsToStore] at h
  obtain ⟨hmetas, news, hstored, hids, _⟩ :=
    addBatches_effects E (docIdOf t) filename (resolveFileType fileType filename)
      (toBatches docs) (getVectorStore s)
  rcases hres : addBatches E (docIdOf t) filename (resolveFileType fileType filename)
      (getVectorStore s) (toBatches docs) with ⟨s₁, ok⟩
  rw [hres] at h hmetas hstored
  dsimp only at hmetas hstored
  cases ok with
  | true => simp at h
  | false =>
    simp only [Prod.mk.injEq] at h
    obtain ⟨hs₂, -⟩ := h
    subst hs₂
    exact ⟨by rw [hmetas, getVectorStore_documentMetas],
      news, by rw [hstored, getVectorStore_storedDocuments], hids⟩

/-- `deleteDocument` filters the registry and the stored documents by
the deleted id (whether or not the rebuild of the vector store
succeeds). -/
theorem deleteDocument_state (E : EmbedOracle) (docId : String) (s : StoreState) :
    (deleteDocument E docId s).1.documentMetas
        = s.documentMetas.filter (fun m => m.id ≠ docId) ∧
    (deleteDocument E docId s).1.storedDocuments
        = s.storedDocuments.filter (fun d => d.1 ≠ docId) := by
  simp only [deleteDocument]
  cases h : rebuildEntries E (toBatches (s.storedDocuments.filter (fun d => d.1 ≠ docId))) with
  | some entries => exact ⟨rfl, rfl⟩
  | none => exact ⟨rfl, rfl⟩

/-! ### Preservation of the registry-store consistency invariant -/

theorem addDocumentsToStore_preserves (E : EmbedOracle) (docs : List Document)
    (filename : String) (fileType : Option String) (t : Nat) (s : StoreState)
    (ids : List String) (hc : metaConsistent s) (hb : idsBounded s ids)
    (hfresh : docIdOf t ∉ ids) :
    metaConsistent (addDocumentsToStore E docs filename fileType t s).1 ∧
    idsBounded (addDocumentsToStore E docs filename fileType t s).1 (ids ++ [docIdOf t]) := by
  rcases hres : addDocumentsToStore E docs filename fileType t s with ⟨s₂, r⟩
  have hold_meta : ∀ m ∈ s.documentMetas, m.id ≠ docIdOf t := by
    intro m hm heq
    exact hfresh (heq ▸ hb.1 m hm)
  have hold_stored : ∀ p ∈ s.storedDocuments, p.1 ≠ docIdOf t := by
    intro p hp heq
    exact hfresh (heq ▸ hb.2 p hp)
  cases r with
  | none =>
    obtain ⟨hmetas, news, hstored, hids⟩ :=
      addDocumentsToStore_failure E docs filename fileType t s s₂ hres
    refine ⟨?_, ?_, ?_⟩
    · intro m hm
      rw [hmetas] at hm
      have hcount := hc m hm
      have hnil : news.filter (fun p => p.1 = m.id) = [] := by
        rw [List.filter_eq_nil_iff]
        intro p hp
        simp only [decide_eq_true_eq]
        intro hpe
        exact hold_meta m hm (by rw [← hpe, hids p hp])
      simp only [hstored, List.filter_append, hnil, List.append_nil]
      exact hcount
    · intro m hm
      rw [hmetas] at hm
      exact List.mem_append_left _ (hb.1 m hm)
    · intro p hp
      rw [hstored] at hp
      rcases List.mem_append.mp hp with h | h
      · exact List.mem_append_left _ (hb.2 p h)
      · rw [hids p h]
        exact List.mem_append_right _ (List.mem_singleton_self _)
  | some m0 =>
    obtain ⟨hid, hcnt, -, hmetas, news, hstored, hids, hlen⟩ :=
      addDocumentsToStore_success E docs filename fileType t s s₂ m0 hres
    refine ⟨?_, ?_, ?_⟩
    · intro m hm
      rw [hmetas] at hm
      rcases List.mem_append.mp hm with hm | hm
      · have hcount := hc m hm
        have hnil : news.filter (fun p => p.1 = m.id) = [] := by
          rw [List.filter_eq_nil_iff]
          intro p hp
          simp only [decide_eq_true_eq]
          intro hpe
          exact hold_meta m hm (by rw [← hpe, hids p hp])
        simp only [hstored, List.filter_append, hnil, List.append_nil]
        exact hcount
      · have hm0 : m = m0 := by simpa using hm
        subst hm0
        have h1 : s.storedDocuments.filter (fun p => p.1 = m.id) = [] := by
          rw [List.filter_eq_nil_iff]
          intro p hp
          simp only [decide_eq_true_eq]
          intro hpe
          exact hold_stored p hp (by rw [hpe, hid])
        have h2 : news.filter (fun p => p.1 = m.id) = news := by
          rw [List.filter_eq_self]
          intro p hp
          simp [hids p hp, hid]
        simp only [hstored, List.filter_append, h1, h2, List.nil_append]
        rw [hcnt, hlen]
    · intro m hm
      rw [hmetas] at hm
      rcases List.mem_append.mp hm with hm | hm
      · exact List.mem_append_left _ (hb.1 m hm)
      · have hm0 : m = m0 := by simpa using hm
        subst hm0
        rw [hid]
        exact List.mem_append_right _ (List.mem_singleton_self _)
    · intro p hp
      rw [hstored] at hp
      rcases List.mem_append.mp hp with h | h
      · exact List.mem_append_left _ (hb.2 p h)
      · rw [hids p h]
        exact List.mem_append_right _ (List.mem_singleton_self _)

theorem deleteDocument_preserves (E : EmbedOracle) (docId : String) (s : StoreState)
    (hc : metaConsistent s) (ids : List String) (hb : idsBounded s ids) :
    metaConsistent (deleteDocument E docId s).1 ∧
    idsBounded (deleteDocument E docId s).1 ids := by
  obtain ⟨hmetas, hstored⟩ := deleteDocument_state E docId s
  refine ⟨?_, ?_, ?_⟩
  · intro m hm
    rw [hmetas] at hm
    have hm' := List.mem_filter.mp hm
    have hne : m.id ≠ docId := by simpa using hm'.2
    rw [hstored, List.filter_filter]
    have hcongr : s.storedDocuments.filter (fun a => decide (a.1 = m.id) && decide (a.1 ≠ docId))
        = s.storedDocuments.filter (fun p => p.1 = m.id) := by
      apply List.filter_congr
      intro p _
      by_cases hpe : p.1 = m.id
      · simp [hpe, hne]
      · simp [hpe]
    rw [hcongr]
    exact hc m hm'.1
  · intro m hm
    rw [hmetas] at hm
    exact hb.1 m (List.mem_filter.mp hm).1
  · intro p hp
    rw [hstored] at hp
    exact hb.2 p (List.mem_filter.mp hp).1

theorem clear_preserves (s : StoreState) (ids : List String) :
    metaConsistent (clearKnowledgeBase s) ∧ idsBounded (clearKnowledgeBase s) ids := by
  refine ⟨?_, ?_, ?_⟩ <;> intro x hx <;> exact absurd hx (List.not_mem_nil x)

/-- The consistency invariant holds after every trace whose `add`
operations generate pairwise distinct ids, starting from any consistent,
id-bounded state (the ids of the trace being fresh for the start). -/
theorem runOps_invariant :
    ∀ (ops : List Op) (s : StoreState) (ids : List String),
      metaConsistent s → idsBounded s ids →
      (∀ i ∈ addIds ops, i ∉ ids) → (addIds ops).Nodup →
      metaConsistent (runOps s ops) ∧ idsBounded (runOps s ops) (ids ++ addIds ops) := by
  intro ops
  induction ops with
  | nil =>
    intro s ids hc hb _ _
    simpa [runOps, addIds] using ⟨hc, hb⟩
  | cons op rest ih =>
    intro s ids hc hb hfresh hnd
    cases op with
    | add E docs filename fileType t =>
      have hhead : docIdOf t ∉ ids := hfresh _ (by simp [addIds])
      have hndc := List.nodup_cons.mp (by simpa [addIds] using hnd)
      obtain ⟨hc', hb'⟩ :=
        addDocumentsToStore_preserves E docs filename fileType t s ids hc hb hhead
      have hrest_fresh : ∀ i ∈ addIds rest, i ∉ ids ++ [docIdOf t] := by
        intro i hi
        simp only [List.mem_append, List.mem_singleton]
        rintro (h | h)
        · exact hfresh i (by simp [addIds, hi]) h
        · exact hndc.1 (h ▸ hi)
      have hmain := ih ((addDocumentsToStore E docs filename fileType t s).1)
        (ids ++ [docIdOf t]) hc' hb' hrest_fresh hndc.2
      have hids_eq : (ids ++ [docIdOf t]) ++ addIds rest
          = ids ++ addIds (Op.add E docs filename fileType t :: rest) := by
        simp [addIds, List.append_assoc]
      simp only [runOps, List.foldl_cons, applyOp] at hmain ⊢
      rw [← hids_eq]
      exact hmain
    | del E docId =>
      obtain ⟨hc', hb'⟩ := deleteDocument_preserves E docId s hc ids hb
      have hmain := ih ((deleteDocument E docId s).1) ids hc' hb'
        (by simpa [addIds] using hfresh) (by simpa [addIds] using hnd)
      simp only [runOps, List.foldl_cons, applyOp] at hmain ⊢
      simpa [addIds] using hmain
    | clearKB =>
      obtain ⟨hc', hb'⟩ := clear_preserves s ids
      have hmain := ih (clearKnowledgeBase s) ids hc' hb'
        (by simpa [addIds] using hfresh) (by simpa [addIds] using hnd)
      simp only [runOps, List.foldl_cons, applyOp] at hmain ⊢
      simpa [addIds] using hmain
    | clearAll =>
      obtain ⟨hc', hb'⟩ := clear_preserves s ids
      have hmain := ih (clearAllDocuments s) ids hc' hb'
        (by simpa [addIds] using hfresh) (by simpa [addIds] using hnd)
      simp only [runOps, List.foldl_cons, applyOp] at hmain ⊢
      simpa [addIds, clearAllDocuments, clearKnowledgeBase] using hmain

/-- Full computation of `addDocumentsToStore` on a one-document list
whose embedding succeeds: one batch, one committed chunk, one appended
meta with `chunkCount = 1`. -/
theorem addDocumentsToStore_singleton (E : EmbedOracle) (d : Document) (filename : String)
    (fileType : Option String) (t : Nat) (s : StoreState) (v : Vec)
    (hE : E (processText d.pageContent) = some v) :
    addDocumentsToStore E [d] filename fileType t s
      = ({ vectorStoreInstance :=
             some ((getVectorStore s).vectorStoreInstance.getD []
               ++ [{ vector := v,
                     doc := withDocId (docIdOf t) filename (resolveFileType fileType filename) d }]),
           storedDocuments := s.storedDocuments
             ++ [(docIdOf t, withDocId (docIdOf t) filename (resolveFileType fileType filename) d)],
           documentMetas := s.documentMetas
             ++ [{ id := docIdOf t, filename := filename, uploadTime := t, chunkCount := 1,
                   fileType := resolveFileType fileType filename }] },
         some { id := docIdOf t, filename := filename, uploadTime := t, chunkCount := 1,
                fileType := resolveFileType fileType filename }) := by
  have h1 : toBatches [d] = [[d]] := by
    rw [toBatches_cons]
    rfl
  have h2 : embedDocuments E [d.pageContent] = some [v] := by
    rw [embedDocuments_eq_call]
    simp [callDashScopeEmbedding, optMap, hE]
  simp [addDocumentsToStore, h1, addBatches, h2, commitBatch, commitChunk,
    getVectorStore_storedDocuments, getVectorStore_documentMetas, batchSize]

/-! ### Validation of the split model: joining the parts restores the
input -/

theorem isPrefixOf_append_drop :
    ∀ (sep l : List Char), sep.isPrefixOf l = true → sep ++ l.drop sep.length = l
  | [], l, _ => by simp
  | a :: sp, [], h => by simp [List.isPrefixOf] at h
  | a :: sp, b :: l, h => by
    have h' : (a == b && sp.isPrefixOf l) = true := h
    simp only [Bool.and_eq_true, beq_iff_eq] at h'
    obtain ⟨hab, hrest⟩ := h'
    subst hab
    simp only [List.length_cons, List.drop_succ_cons, List.cons_append, List.cons.injEq]
    exact ⟨trivial, isPrefixOf_append_drop sp l hrest⟩

theorem splitCharsF_ne_nil (sep : List Char) :
    ∀ (fuel : Nat) (l acc : List Char), splitCharsF sep fuel l acc ≠ [] := by
  intro fuel
  induction fuel with
  | zero => intro l acc; simp [splitCharsF]
  | succ f ih =>
    intro l acc
    cases l with
    | nil => simp [splitCharsF]
    | cons c rest =>
      simp only [splitCharsF]
      split
      · simp
      · exact ih rest (c :: acc)

theorem joinChars_cons (sep x : List Char) (xs : List (List Char)) (h : xs ≠ []) :
    joinChars sep (x :: xs) = x ++ sep ++ joinChars sep xs := by
  cases xs with
  | nil => exact absurd rfl h
  | cons y rest => rfl

theorem splitCharsF_join (sep : List Char) (hsep : sep ≠ []) :
    ∀ (fuel : Nat) (l acc : List Char), l.length < fuel →
      joinChars sep (splitCharsF sep fuel l acc) = acc.reverse ++ l := by
  intro fuel
  induction fuel with
  | zero => intro l acc h; omega
  | succ f ih =>
    intro l acc h
    cases l with
    | nil => simp [splitCharsF, joinChars]
    | cons c rest =>
      simp only [splitCharsF]
      by_cases hp : sep.isPrefixOf (c :: rest) = true ∧ sep ≠ []
      · rw [if_pos hp]
        have hplen : 0 < sep.length := List.length_pos.mpr hsep
        have hdlen : (List.drop sep.length (c :: rest)).length < f := by
          simp only [List.length_drop, List.length_cons]
          simp only [List.length_cons] at h
          omega
        rw [joinChars_cons sep _ _ (splitCharsF_ne_nil sep f _ [])]
        rw [ih _ [] hdlen]
        simp only [List.reverse_nil, List.nil_append]
        rw [List.append_assoc, isPrefixOf_append_drop sep (c :: rest) hp.1]
      · rw [if_neg hp]
        rw [ih rest (c :: acc) (by simp only [List.length_cons] at h; omega)]
        simp [List.reverse_cons, List.append_assoc]

theorem joinSep_map_mk (sep : String) :
    ∀ (parts : List (List Char)),
      joinSep sep (parts.map String.mk) = String.mk (joinChars sep.data parts)
  | [] => rfl
  | [x] => rfl
  | x :: y :: rest => by
    have ih := joinSep_map_mk sep (y :: rest)
    simp only [List.map_cons] at ih ⊢
    show String.mk x ++ sep ++ joinSep sep (String.mk y :: rest.map String.mk) = _
    rw [show joinSep sep (String.mk y :: rest.map String.mk)
          = String.mk (joinChars sep.data (y :: rest)) from ih]
    cases sep
    rfl

/-- `jsSplitOn` is a faithful split: for a nonempty separator, joining
the returned parts with the separator restores the input string. -/
theorem jsSplitOn_join (sep s : String) (hsep : sep ≠ "") :
    joinSep sep (jsSplitOn sep s) = s := by
  have hd : sep.data ≠ [] := by
    intro h
    exact hsep (congrArg String.mk h)
  unfold jsSplitOn splitChars
  rw [joinSep_map_mk]
  rw [splitCharsF_join sep.data hd (s.data.length + 1) s.data [] (by omega)]
  rfl

/-! ### Claim theorems -/

/-- **C10** (confirmed): `clearKnowledgeBase` and `clearAllDocuments` are
behaviorally equivalent — both set `storedDocuments` and `documentMetas`
to empty and drop the vector-store instance, producing identical states;
applying either after the other, in any order and any number of times,
yields the same state as applying one once. -/
theorem c10_clear_equivalence (s : StoreState) :
    clearKnowledgeBase s = clearAllDocuments s ∧
    clearKnowledgeBase s
      = { vectorStoreInstance := none, storedDocuments := [], documentMetas := [] } ∧
    clearKnowledgeBase (clearKnowledgeBase s) = clearKnowledgeBase s ∧
    clearAllDocuments (clearAllDocuments s) = clearAllDocuments s ∧
    clearKnowledgeBase (clearAllDocuments s) = clearAllDocuments s ∧
    clearAllDocuments (clearKnowledgeBase s) = clearKnowledgeBase s :=
  ⟨rfl, rfl, rfl, rfl, rfl, rfl⟩

/-- **C4** (confirmed): whenever retrieval returns zero documents,
`queryRag` returns exactly the fixed no-relevant-information answer with
empty chunk and suggestion lists, and the generation collaborator is
never invoked (the Boolean component records whether
`createLLM`/`model.invoke` was reached; the result is moreover the same
for every generator). -/
theorem c4_empty_retrieval_short_circuit (retrieve : String → Nat → List Document)
    (generate : String → String) (config : RagConfig) (question : String)
    (customTopK : Option Nat)
    (h : retrieve question (customTopK.getD config.topK) = []) :
    queryRag retrieve generate config question customTopK
      = ({ answer := noRelevantAnswer, chunks := [], suggestedQuestions := [] }, false) := by
  simp [queryRag, h]

/-- **C4** witness: a concrete query against a retriever that finds
nothing. -/
theorem c4_empty_retrieval_short_circuit_witness :
    queryRag retrieveNothing generateSample defaultConfig "问题" none
      = ({ answer := noRelevantAnswer, chunks := [], suggestedQuestions := [] }, false) :=
  c4_empty_retrieval_short_circuit retrieveNothing generateSample defaultConfig "问题" none rfl

/-- **C6** (confirmed): when the normalized extracted text is shorter
than 10 characters the upload handler fails with the empty-content
error, makes no embedding call (third component `false`), and leaves the
store and registry untouched. -/
theorem c6_empty_content_rejected (E : EmbedOracle) (split : String → List String)
    (filename fileType rawContent : String) (t : Nat) (s : StoreState)
    (h : (normalizeContent rawContent).length < 10) :
    handleUpload E split filename fileType rawContent t s
      = (UploadResponse.emptyContent, s, false) := by
  simp [handleUpload, h]

/-- **C6** witness: uploading the 2-character document `"hi"`. -/
theorem c6_empty_content_rejected_witness :
    ((normalizeContent "hi").length < 10) ∧
    handleUpload oracleOne (fun _ => []) "hi.txt" "TXT" "hi" 0 initialState
      = (UploadResponse.emptyContent, initialState, false) :=
  ⟨by decide,
    c6_empty_content_rejected oracleOne (fun _ => []) "hi.txt" "TXT" "hi" 0 initialState
      (by decide)⟩

/-- **C2** counterexample: ingesting `elevenDocs` (two sub-batches) with
an oracle failing on the second sub-batch.  The call fails as a whole
(no meta is returned and the registry stays empty), but the store state
is NOT unchanged: the 10 chunks of the first, successful sub-batch stay
committed in `storedDocuments` — contradicting the claimed all-or-nothing
ingestion. -/
theorem c2_ingestion_atomicity_counterexample :
    (addDocumentsToStore oracleBad elevenDocs "f.txt" (some "TXT") 0 initialState).2 = none ∧
    initialState.storedDocuments.length = 0 ∧
    (addDocumentsToStore oracleBad elevenDocs "f.txt" (some "TXT") 0
      initialState).1.storedDocuments.length = 10 ∧
    (addDocumentsToStore oracleBad elevenDocs "f.txt" (some "TXT") 0
      initialState).1.documentMetas = [] := by decide

/-- **C2** (amended): when any sub-batch embedding fails the call fails
as a whole and no document record is created — `documentMetas` and the
knowledge-base statistics are exactly as before — but `storedDocuments`
retains the chunks committed by the sub-batches that succeeded before
the failure (all tagged with the failed call's generated id); the store
is NOT rolled back. -/
theorem c2_ingestion_failure_no_record (E : EmbedOracle) (docs : List Document)
    (filename : String) (fileType : Option String) (t : Nat) (s s₂ : StoreState)
    (h : addDocumentsToStore E docs filename fileType t s = (s₂, none)) :
    s₂.documentMetas = s.documentMetas ∧
    getKnowledgeBaseStats s₂ = getKnowledgeBaseStats s ∧
    ∃ news, s₂.storedDocuments = s.storedDocuments ++ news ∧
      ∀ p ∈ news, p.1 = docIdOf t := by
  obtain ⟨hmetas, news, hstored, hids⟩ :=
    addDocumentsToStore_failure E docs filename fileType t s s₂ h
  exact ⟨hmetas, by simp [getKnowledgeBaseStats, hmetas], news, hstored, hids⟩

/-- **C2** witness: the amended statement at the concrete failing
ingestion. -/
theorem c2_ingestion_failure_no_record_witness :
    (addDocumentsToStore oracleBad elevenDocs "f.txt" (some "TXT") 0
        initialState).1.documentMetas = initialState.documentMetas ∧
    getKnowledgeBaseStats (addDocumentsToStore oracleBad elevenDocs "f.txt" (some "TXT") 0
        initialState).1 = getKnowledgeBaseStats initialState ∧
    ∃ news, (addDocumentsToStore oracleBad elevenDocs "f.txt" (some "TXT") 0
        initialState).1.storedDocuments = initialState.storedDocuments ++ news ∧
      ∀ p ∈ news, p.1 = docIdOf 0 :=
  c2_ingestion_failure_no_record oracleBad elevenDocs "f.txt" (some "TXT") 0 initialState
    (addDocumentsToStore oracleBad elevenDocs "f.txt" (some "TXT") 0 initialState).1
    (by decide)

/-- **C3** counterexample: an input of size exactly 10 does NOT trigger a
split — the loop issues it as a single sub-batch (`i = 0` covers all 10
and the loop ends); only 11 or more inputs produce more than one
sub-batch. -/
theorem c3_batch_split_counterexample :
    (toBatches (List.replicate 10 "t")).length = 1 ∧
    ¬ 2 ≤ (toBatches (List.replicate 10 "t")).length ∧
    (toBatches (List.replicate 11 "t")).length = 2 := by decide

/-- **C3** (amended): `embedDocuments` splits its input into consecutive
sub-batches of at most 10 — the number of sub-batches is `⌈n / 10⌉`, so
inputs of size up to and including exactly 10 are issued as one batch
and only 11 or more trigger an actual split — issues them sequentially,
and on success returns one vector per input text: the result has the
input's length and its `i`-th entry is the oracle's embedding of the
`i`-th input text (after the trim/truncate preprocessing), across
sub-batch boundaries. -/
theorem c3_embed_batching_order (E : EmbedOracle) (texts : List String) :
    (toBatches texts).length = (texts.length + 9) / 10 ∧
    ∀ vs, embedDocuments E texts = some vs →
      vs.length = texts.length ∧
      ∀ i : Nat, vs[i]? = (texts[i]?.map processText).bind E := by
  refine ⟨toBatches_length texts, ?_⟩
  intro vs h
  rw [embedDocuments_eq_call] at h
  unfold callDashScopeEmbedding at h
  refine ⟨by simpa using optMap_length E _ vs h, ?_⟩
  intro i
  rw [optMap_getElem? E _ vs h i]
  simp

/-- **C3** witness: eleven texts (a genuine two-sub-batch input) embed to
eleven vectors in input order. -/
theorem c3_embed_batching_order_witness :
    (List.replicate 11 "t").length = 11 ∧
    embedDocuments oracleOne (List.replicate 11 "t")
      = some (List.replicate 11 [1]) ∧
    (List.replicate 11 ([1] : Vec)).length = (List.replicate 11 "t").length ∧
    ∀ i : Nat, (List.replicate 11 ([1] : Vec))[i]?
      = ((List.replicate 11 "t")[i]?.map processText).bind oracleOne :=
  ⟨by decide, by decide,
    ((c3_embed_batching_order oracleOne (List.replicate 11 "t")).2
      (List.replicate 11 [1]) (by decide)).1,
    ((c3_embed_batching_order oracleOne (List.replicate 11 "t")).2
      (List.replicate 11 [1]) (by decide)).2⟩

/-- **C5** counterexample: two ingestions in the same millisecond share
the id `doc_0`; afterwards the first record's `chunkCount` (1) differs
from the number of stored entries carrying its id (3) — the claimed
invariant fails on a reachable state. -/
theorem c5_consistency_counterexample :
    ¬ metaConsistent (runOps initialState collidingOps) := by decide

/-- **C5** (amended): the registry-store consistency invariant —
each `DocumentMeta.chunkCount` equals the number of `storedDocuments`
entries carrying that record's id — holds in every state reachable by
`addDocumentsToStore` / `deleteDocument` / `clearKnowledgeBase` /
`clearAllDocuments` traces from the empty state, provided the ids
`doc_<t>` generated by the `add` calls are pairwise distinct (which
distinct `Date.now()` timestamps give, the id being the decimal
timestamp). -/
theorem c5_registry_store_consistency (ops : List Op)
    (h : (addIds ops).Nodup) : metaConsistent (runOps initialState ops) := by
  have hc : metaConsistent initialState := by
    intro m hm
    exact absurd hm (List.not_mem_nil m)
  have hb : idsBounded initialState [] :=
    ⟨fun m hm => absurd hm (List.not_mem_nil m), fun p hp => absurd hp (List.not_mem_nil p)⟩
  exact (runOps_invariant ops initialState [] hc hb (by simp) h).1

/-- **C5** witness: a five-operation trace with pairwise distinct
ingestion timestamps. -/
theorem c5_registry_store_consistency_witness :
    (addIds wellFormedOps).Nodup ∧ metaConsistent (runOps initialState wellFormedOps) :=
  ⟨by decide, c5_registry_store_consistency wellFormedOps (by decide)⟩

/-- **C9** counterexample: two ingestions at the same timestamp (5)
receive the SAME id `doc_5` — the registry holds two records with equal
ids, refuting both the claimed freshness and the claimed same-timestamp
distinctness (`doc_${Date.now()}` has no random suffix). -/
theorem c9_id_uniqueness_counterexample :
    (runOps initialState collidingOps5).documentMetas.map DocumentMeta.id
      = ["doc_5", "doc_5"] ∧
    ¬ ((runOps initialState collidingOps5).documentMetas.map DocumentMeta.id).Nodup := by
  decide

/-- **C9** (amended): the generated id is `doc_<t>`, a pure function of
the millisecond timestamp: two same-millisecond ingestions collide.  A
successful `addDocumentsToStore` whose generated id is not already in
the registry appends a record with exactly that id and keeps the
registry's ids pairwise distinct (so ids stay unique whenever ingestion
timestamps are pairwise distinct). -/
theorem c9_id_uniqueness (E : EmbedOracle) (docs : List Document) (filename : String)
    (fileType : Option String) (t : Nat) (s s₂ : StoreState) (m : DocumentMeta)
    (hfresh : docIdOf t ∉ s.documentMetas.map DocumentMeta.id)
    (hnd : (s.documentMetas.map DocumentMeta.id).Nodup)
    (h : addDocumentsToStore E docs filename fileType t s = (s₂, some m)) :
    m.id = docIdOf t ∧ (s₂.documentMetas.map DocumentMeta.id).Nodup := by
  obtain ⟨hid, -, -, hmetas, -⟩ :=
    addDocumentsToStore_success E docs filename fileType t s s₂ m h
  refine ⟨hid, ?_⟩
  rw [hmetas, List.map_append]
  rw [List.nodup_append]
  refine ⟨hnd, by simp, ?_⟩
  intro x hx hx'
  simp only [List.map_cons, List.map_nil, List.mem_singleton] at hx'
  rw [hx', hid] at hx
  exact hfresh hx

/-- **C9** witness: a fresh ingestion into the empty store at timestamp
7 yields the id `doc_7` and a duplicate-free registry. -/
theorem c9_id_uniqueness_witness :
    freshAddMeta.id = docIdOf 7 ∧
    (freshAddState.documentMetas.map DocumentMeta.id).Nodup :=
  c9_id_uniqueness oracleOne [chunkA] "a.txt" none 7 initialState freshAddState freshAddMeta
    (by decide) (by decide) (by decide)

/-- **C1** counterexample: from a reachable state already holding a
record with id `doc_0` (an earlier same-millisecond ingestion), ingest a
2-chunk document `d` (it also gets id `doc_0`, `chunkCount = 2`) and
delete `d.id`.  `documentCount` drops from 2 to 0 (by 2, not 1) and
`totalChunks` from 3 to 0 (by 3, not `d.chunkCount = 2`). -/
theorem c1_deletion_law_counterexample :
    (addDocumentsToStore oracleOne [chunkB, chunkC] "b.txt" none 0 collideState1).2
      = some { id := "doc_0", filename := "b.txt", uploadTime := 0,
               chunkCount := 2, fileType := "TXT" } ∧
    (getKnowledgeBaseStats collideState2).documentCount = 2 ∧
    (getKnowledgeBaseStats collideState2).totalChunks = 3 ∧
    (getKnowledgeBaseStats collideState3).documentCount = 0 ∧
    (getKnowledgeBaseStats collideState3).totalChunks = 0 ∧
    ¬ ((getKnowledgeBaseStats collideState3).documentCount + 1
        = (getKnowledgeBaseStats collideState2).documentCount) ∧
    ¬ ((getKnowledgeBaseStats collideState3).totalChunks + 2
        = (getKnowledgeBaseStats collideState2).totalChunks) := by decide

/-- **C1** (amended deletion law): if the id generated for the
ingestion is not already present in the registry (true whenever no other
ingestion shares its millisecond timestamp), then after ingesting `d`
and deleting `d.id`: no surviving stored entry carries `d.id`,
`totalChunks` decreases by exactly `d.chunkCount`, and `documentCount`
decreases by exactly 1 — whether or not the rebuild's re-embedding
succeeds. -/
theorem c1_deletion_law (E Edel : EmbedOracle) (docs : List Document)
    (filename : String) (fileType : Option String) (t : Nat) (s s₂ : StoreState)
    (m : DocumentMeta)
    (hfresh : docIdOf t ∉ s.documentMetas.map DocumentMeta.id)
    (hadd : addDocumentsToStore E docs filename fileType t s = (s₂, some m)) :
    (∀ p ∈ (deleteDocument Edel m.id s₂).1.storedDocuments, p.1 ≠ m.id) ∧
    (getKnowledgeBaseStats (deleteDocument Edel m.id s₂).1).totalChunks + m.chunkCount
      = (getKnowledgeBaseStats s₂).totalChunks ∧
    (getKnowledgeBaseStats (deleteDocument Edel m.id s₂).1).documentCount + 1
      = (getKnowledgeBaseStats s₂).documentCount := by
  obtain ⟨hid, -, -, hmetas, -⟩ :=
    addDocumentsToStore_success E docs filename fileType t s s₂ m hadd
  obtain ⟨dmetas, dstored⟩ := deleteDocument_state Edel m.id s₂
  have hnotin : ∀ a ∈ s.documentMetas, a.id ≠ m.id := by
    intro a ha heq
    apply hfresh
    rw [← hid, ← heq]
    exact List.mem_map_of_mem DocumentMeta.id ha
  have hfilter : (deleteDocument Edel m.id s₂).1.documentMetas = s.documentMetas := by
    rw [dmetas, hmetas, List.filter_append]
    have h1 : s.documentMetas.filter (fun x => x.id ≠ m.id) = s.documentMetas := by
      rw [List.filter_eq_self]
      intro a ha
      simpa using hnotin a ha
    have h2 : [m].filter (fun x => x.id ≠ m.id) = [] := by simp
    rw [h1, h2, List.append_nil]
  refine ⟨?_, ?_, ?_⟩
  · intro p hp
    rw [dstored] at hp
    simpa using (List.mem_filter.mp hp).2
  · simp [getKnowledgeBaseStats, hfilter, hmetas]
  · simp [getKnowledgeBaseStats, hfilter, hmetas]

/-- **C1** witness: ingest one chunk at the fresh timestamp 7 into the
empty store, then delete it. -/
theorem c1_deletion_law_witness :
    (∀ p ∈ (deleteDocument oracleOne freshAddMeta.id freshAddState).1.storedDocuments,
      p.1 ≠ freshAddMeta.id) ∧
    (getKnowledgeBaseStats (deleteDocument oracleOne freshAddMeta.id
        freshAddState).1).totalChunks + freshAddMeta.chunkCount
      = (getKnowledgeBaseStats freshAddState).totalChunks ∧
    (getKnowledgeBaseStats (deleteDocument oracleOne freshAddMeta.id
        freshAddState).1).documentCount + 1
      = (getKnowledgeBaseStats freshAddState).documentCount :=
  c1_deletion_law oracleOne oracleOne [chunkA] "a.txt" none 7 initialState freshAddState
    freshAddMeta (by decide) (by decide)

/-- **C7** (confirmed fallback law): for non-empty normalized content
(length ≥ 10), when the splitter returns zero segments the pipeline
ingests exactly one chunk — the whole original document — rather than
failing or ingesting nothing: the handler succeeds with a meta of
`chunkCount = 1`, and the single stored entry is the full normalized
content (stated under a successful embedding of that single chunk, the
embedding collaborator being external). -/
theorem c7_zero_split_fallback (E : EmbedOracle) (split : String → List String)
    (filename fileType rawContent : String) (t : Nat) (s : StoreState) (v : Vec)
    (hlen : 10 ≤ (normalizeContent rawContent).length)
    (hsplit : split (normalizeContent rawContent) = [])
    (hembed : E (processText (normalizeContent rawContent)) = some v) :
    handleUpload E split filename fileType rawContent t s
      = (UploadResponse.ok
           { id := docIdOf t, filename := filename, uploadTime := t, chunkCount := 1,
             fileType := resolveFileType (some fileType) filename },
         { vectorStoreInstance :=
             some ((getVectorStore s).vectorStoreInstance.getD []
               ++ [{ vector := v,
                     doc := withDocId (docIdOf t) filename
                       (resolveFileType (some fileType) filename)
                       { pageContent := normalizeContent rawContent,
                         metadata := { docId := none, source := some filename,
                                       fileType := some fileType } } }]),
           storedDocuments := s.storedDocuments
             ++ [(docIdOf t, withDocId (docIdOf t) filename
                   (resolveFileType (some fileType) filename)
                   { pageContent := normalizeContent rawContent,
                     metadata := { docId := none, source := some filename,
                                   fileType := some fileType } })],
           documentMetas := s.documentMetas
             ++ [{ id := docIdOf t, filename := filename, uploadTime := t, chunkCount := 1,
                   fileType := resolveFileType (some fileType) filename }] },
         true) := by
  have hnl : ¬ (normalizeContent rawContent).length < 10 := Nat.not_lt.mpr hlen
  have hpos : 0 < (normalizeContent rawContent).length := by omega
  have hadd := addDocumentsToStore_singleton E
    { pageContent := normalizeContent rawContent,
      metadata := { docId := none, source := some filename, fileType := some fileType } }
    filename (some fileType) t s v hembed
  simp [handleUpload, hnl, hsplit, hpos, hadd]

/-- **C7** witness: an 11-character document whose splitter returns no
segments is ingested as one whole-document chunk. -/
theorem c7_zero_split_fallback_witness :
    handleUpload oracleOne (fun _ => []) "w.txt" "TXT" "abcdefghijk" 0 initialState
      = (UploadResponse.ok
           { id := docIdOf 0, filename := "w.txt", uploadTime := 0, chunkCount := 1,
             fileType := resolveFileType (some "TXT") "w.txt" },
         { vectorStoreInstance :=
             some ((getVectorStore initialState).vectorStoreInstance.getD []
               ++ [{ vector := [1],
                     doc := withDocId (docIdOf 0) "w.txt"
                       (resolveFileType (some "TXT") "w.txt")
                       { pageContent := normalizeContent "abcdefghijk",
                         metadata := { docId := none, source := some "w.txt",
                                       fileType := some "TXT" } } }]),
           storedDocuments := initialState.storedDocuments
             ++ [(docIdOf 0, withDocId (docIdOf 0) "w.txt"
                   (resolveFileType (some "TXT") "w.txt")
                   { pageContent := normalizeContent "abcdefghijk",
                     metadata := { docId := none, source := some "w.txt",
                                   fileType := some "TXT" } })],
           documentMetas := initialState.documentMetas
             ++ [{ id := docIdOf 0, filename := "w.txt", uploadTime := 0, chunkCount := 1,
                   fileType := resolveFileType (some "TXT") "w.txt" }] },
         true) :=
  c7_zero_split_fallback oracleOne (fun _ => []) "w.txt" "TXT" "abcdefghijk" 0 initialState
    [1] (by decide) rfl (by decide)

/-- **C8** (confirmed): when retrieval is non-empty, `queryRag`'s answer
and suggested questions are exactly `parseRagAnswer` of the generator's
raw output on the assembled prompt; and for every raw output: if the
separator token occurs (the split has at least two parts), the answer is
the trimmed text before the first separator and the suggested questions
are at most 3, each non-empty, shorter than 100 characters and obtained
from one line of the post-separator block by stripping leading numeric
or bullet list markers; if the separator is absent, the answer is the
full raw output and the suggestion list is empty. -/
theorem c8_suggested_question_parsing (retrieve : String → Nat → List Document)
    (generate : String → String) (config : RagConfig) (question : String)
    (customTopK : Option Nat)
    (hdocs : retrieve question (customTopK.getD config.topK) ≠ []) :
    ((queryRag retrieve generate config question customTopK).1.answer,
      (queryRag retrieve generate config question customTopK).1.suggestedQuestions)
        = parseRagAnswer (generate (ragPrompt (buildContext
            (retrieve question (customTopK.getD config.topK))) question)) ∧
    ∀ rawAnswer : String,
      (2 ≤ (jsSplitOn suggestedQuestionsSep rawAnswer).length →
        (parseRagAnswer rawAnswer).1
            = jsTrim ((jsSplitOn suggestedQuestionsSep rawAnswer).headD "") ∧
        (parseRagAnswer rawAnswer).2.length ≤ 3 ∧
        ∀ q ∈ (parseRagAnswer rawAnswer).2, q ≠ "" ∧ q.length < 100 ∧
          ∃ line ∈ jsSplitOn "\n"
              (jsTrim (((jsSplitOn suggestedQuestionsSep rawAnswer)[1]?).getD "")),
            q = stripListMarkers line) ∧
      ((jsSplitOn suggestedQuestionsSep rawAnswer).length < 2 →
        parseRagAnswer rawAnswer = (rawAnswer, [])) := by
  constructor
  · have hne : (retrieve question (customTopK.getD config.topK)).length ≠ 0 := by
      simpa [List.length_eq_zero] using hdocs
    simp [queryRag, hne]
  · intro rawAnswer
    constructor
    · intro hsep
      have hparse : parseRagAnswer rawAnswer
          = (jsTrim ((jsSplitOn suggestedQuestionsSep rawAnswer).headD ""),
             (((jsSplitOn "\n"
                  (jsTrim (((jsSplitOn suggestedQuestionsSep rawAnswer)[1]?).getD ""))).map
                stripListMarkers).filter
                (fun q => 0 < q.length ∧ q.length < 100)).take 3) := by
        simp [parseRagAnswer, hsep]
      refine ⟨?_, ?_, ?_⟩
      · rw [hparse]
      · rw [hparse]
        simp only [List.length_take]
        omega
      · intro q hq
        rw [hparse] at hq
        have hq' := List.mem_of_mem_take hq
        have hfil := List.mem_filter.mp hq'
        have hbounds : 0 < q.length ∧ q.length < 100 := by simpa using hfil.2
        obtain ⟨line, hline, hlineq⟩ := List.mem_map.mp hfil.1
        refine ⟨?_, hbounds.2, line, hline, hlineq.symm⟩
        intro hq0
        rw [hq0] at hbounds
        exact absurd hbounds.1 (by decide)
    · intro hlt
      have hn : ¬ 2 ≤ (jsSplitOn suggestedQuestionsSep rawAnswer).length := by omega
      simp [parseRagAnswer, hn]

/-- **C8** witness: a concrete raw output with the separator and four
candidate questions, through `queryRag` with a one-chunk retriever. -/
theorem c8_suggested_question_parsing_witness :
    (((queryRag retrieveChunkA generateSample defaultConfig "q" none).1.answer,
      (queryRag retrieveChunkA generateSample defaultConfig "q" none).1.suggestedQuestions)
        = parseRagAnswer (generateSample (ragPrompt (buildContext
            (retrieveChunkA "q" ((none : Option Nat).getD defaultConfig.topK))) "q"))) ∧
    2 ≤ (jsSplitOn suggestedQuestionsSep sampleRawAnswer).length ∧
    (parseRagAnswer sampleRawAnswer).1
        = jsTrim ((jsSplitOn suggestedQuestionsSep sampleRawAnswer).headD "") ∧
    (parseRagAnswer sampleRawAnswer).2.length ≤ 3 ∧
    (∀ q ∈ (parseRagAnswer sampleRawAnswer).2, q ≠ "" ∧ q.length < 100 ∧
      ∃ line ∈ jsSplitOn "\n"
          (jsTrim (((jsSplitOn suggestedQuestionsSep sampleRawAnswer)[1]?).getD "")),
        q = stripListMarkers line) ∧
    parseRagAnswer sampleRawAnswer = ("The answer.", ["First", "Second", "Third"]) :=
  have h := c8_suggested_question_parsing retrieveChunkA generateSample defaultConfig "q"
    none (by decide)
  have hp := (h.2 sampleRawAnswer).1 (by decide)
  ⟨h.1, by decide, hp.1, hp.2.1, hp.2.2, by decide⟩

end RagStarter
